import Mathlib

/-!
# Verification of the SpaceForce filesystem scanner

Shallow embedding of the scanner core of the SpaceForce repository
(`scanner/models.go`, `scanner/scanner.go`, `safety/volumes.go`) and proofs
about it.

Modelling conventions:
* Go `int64` sizes and millisecond timestamps become `Int`; counters that the
  code only ever increments become `Nat`.
* The filesystem is a finite tree (`FSNode`); each node records the outcomes
  the real filesystem would give the scanner: the `entry.Info()` result, the
  `os.Stat` device/inode lookup, the volume-checker verdict for its path, and
  the outcome of listing it as a directory.
* Goroutines spawned by `scanDirectoryParallel` are linearized at their spawn
  point (each spawned scan runs to completion where `go func` appears); the
  worker semaphore, which has no observable effect under this schedule, is
  treated separately by the task-system model `TaskC` below.
* Wall-clock reads, channel fullness and context cancellation are supplied by
  environment oracles indexed by the number of prior observations.
-/

namespace SpaceForce

/-- Mirror of `scanner.ScanProgress` (models.go lines 38-47). `Errors` is kept
as the list of formatted error messages. -/
structure ScanProgress where
  currentPath : String
  filesScanned : Nat
  bytesScanned : Int
  totalBytes : Int
  errors : List String
  complete : Bool
  icloudFilesSkipped : Nat
deriving Repr, DecidableEq

/-- Mirror of `scanner.FileNode` (models.go lines 9-19). The `Parent`
back-reference and `IsProtected` flag play no role in the scanner core and are
omitted; `ModTime` is an abstract integer timestamp. -/
inductive FileNode where
  | mk (path : String) (name : String) (size : Int) (isDir : Bool)
       (modTime : Int) (fileType : String) (children : List FileNode)

def FileNode.path : FileNode → String
  | .mk p _ _ _ _ _ _ => p

def FileNode.name : FileNode → String
  | .mk _ n _ _ _ _ _ => n

def FileNode.size : FileNode → Int
  | .mk _ _ s _ _ _ _ => s

def FileNode.isDir : FileNode → Bool
  | .mk _ _ _ d _ _ _ => d

def FileNode.children : FileNode → List FileNode
  | .mk _ _ _ _ _ _ cs => cs

def FileNode.withChildren : FileNode → List FileNode → FileNode
  | .mk p n s d m t _, cs => .mk p n s d m t cs

/-- `filepath.Base` restricted to the cleaned absolute paths the scanner
builds by joining components. -/
def baseName (p : String) : String :=
  (p.splitOn ("/")).getLast?.getD p

/-- `filepath.Ext`: the suffix starting at the final dot of the final path
element, `""` when that element has no dot. -/
def extName (p : String) : String :=
  let parts := (baseName p).splitOn (".")
  if parts.length ≤ 1 then ("") else ("." ++ (parts.getLast?.getD ("")))

/-- Mirror of `scanner.NewFileNode` (models.go lines 50-70). -/
def NewFileNode (path : String) (size : Int) (isDir : Bool) (modTime : Int) :
    FileNode :=
  let ext := extName path
  let ext := if ext = ("") then (if isDir then ("directory") else ("no-extension")) else ext
  .mk path (baseName path) size isDir modTime ext []

mutual
/-- Mirror of `FileNode.TotalSize` (models.go lines 79-89): a file reports its
own size, a directory the sum of its children's totals. -/
def FileNode.TotalSize : FileNode → Int
  | .mk _ _ size isDir _ _ children =>
    if !isDir then size else TotalSizeList children

/-- The loop `for _, child := range n.Children { total += child.TotalSize() }`
of `FileNode.TotalSize`. -/
def TotalSizeList : List FileNode → Int
  | [] => 0
  | c :: cs => FileNode.TotalSize c + TotalSizeList cs
end

mutual
/-- Sum of the sizes of the non-directory nodes of a subtree: this follows the
spec's words "recursive sum of the file sizes in its subtree" and is compared
with `FileNode.TotalSize`. -/
def subtreeFileSizes : FileNode → Int
  | .mk _ _ size isDir _ _ children =>
    (if isDir then 0 else size) + subtreeFileSizesList children

def subtreeFileSizesList : List FileNode → Int
  | [] => 0
  | c :: cs => subtreeFileSizes c + subtreeFileSizesList cs
end

mutual
/-- The data-model invariant "a node with is-directory=false has no children"
(spec §3), checked over a whole subtree. -/
def wfNode : FileNode → Bool
  | .mk _ _ _ isDir _ _ children =>
    (isDir || children.isEmpty) && wfNodeList children

def wfNodeList : List FileNode → Bool
  | [] => true
  | c :: cs => wfNode c && wfNodeList cs
end

/-- Result of `entry.Info()` in the model: the stat data or an error
message. -/
structure EntryMeta where
  size : Int
  modTime : Int
  isDir : Bool
deriving Repr, DecidableEq

/-- Outcome of `os.ReadDir` on a directory: success, a failure with the
underlying error text, or a hang that exceeds the 5-second deadline of
`readDirWithTimeout`. -/
inductive ReadOutcome where
  | ok
  | failMsg (msg : String)
  | timeout
deriving Repr, DecidableEq

/-- One filesystem entry as the scanner observes it. Each node fixes the
outcomes the external capabilities return for it: `infoRes` is the
`entry.Info()` result, `devIno` the device/inode pair `os.Stat` reports for
its full path (`none` when that stat fails), `volSkip` the
`VolumeChecker.ShouldSkipPath` verdict for its full path (`some reason` means
skip), and `readRes`/`children` the outcome of listing it when it is a
directory. Two nodes holding the same `devIno` model one physical directory
presented at two logical paths (a firmlink/alias). -/
inductive FSNode where
  | mk (name : String) (infoRes : Except String EntryMeta)
       (devIno : Option (Nat × Nat)) (volSkip : Option String)
       (readRes : ReadOutcome) (children : List FSNode)

def FSNode.name : FSNode → String
  | .mk n _ _ _ _ _ => n

def FSNode.infoRes : FSNode → Except String EntryMeta
  | .mk _ i _ _ _ _ => i

def FSNode.devIno : FSNode → Option (Nat × Nat)
  | .mk _ _ d _ _ _ => d

def FSNode.volSkip : FSNode → Option String
  | .mk _ _ _ v _ _ => v

def FSNode.readRes : FSNode → ReadOutcome
  | .mk _ _ _ _ r _ => r

def FSNode.children : FSNode → List FSNode
  | .mk _ _ _ _ _ cs => cs

/-- Mutable state of one `Scanner` (scanner.go lines 583-596) together with
the observation ghosts of the model: `sent` logs the snapshots delivered on
the progress channel, `nUpd` counts `updateProgress` calls (it indexes the
clock and channel oracles) and `nPolls` counts cancellation polls. -/
structure SState where
  progress : ScanProgress
  lastProgressUpdate : Int
  skippedVolumes : List String
  startDeviceID : Nat
  seenInodes : List (Nat × Nat)
  sent : List ScanProgress
  nUpd : Nat
  nPolls : Nat
deriving Repr, DecidableEq

/-- Environment of one `Scan` invocation: the root, the option flags, and the
oracles for wall-clock reads, channel fullness and cancellation.
`cancelFrom = some n` means the context is cancelled from the `n`-th
cancellation poll on (cooperative cancellation of a monotone signal);
`none` means it is never cancelled. -/
structure ScanEnv where
  rootPath : String
  absOk : Bool
  rootInfo : Option EntryMeta
  rootDev : Option Nat
  rootFS : FSNode
  oneFilesystem : Bool
  hasChan : Bool
  timeAt : Nat → Int
  chanFreeAt : Nat → Bool
  finalChanFree : Bool
  cancelFrom : Option Nat

/-- Whether the cancellation signal is set at the `k`-th poll. -/
def isCancelledAt (env : ScanEnv) (k : Nat) : Bool :=
  match env.cancelFrom with
  | none => false
  | some n => decide (n ≤ k)

/-- One `select { case <-ctx.Done(): ... default: }` checkpoint: observe the
signal and advance the poll counter. -/
def pollCancel (env : ScanEnv) (st : SState) : Bool × SState :=
  (isCancelledAt env st.nPolls, { st with nPolls := st.nPolls + 1 })

/-- The initial state built by `NewScanner` (scanner.go lines 599-618): all
counters zero, empty error and skip lists. -/
def initState : SState :=
  { progress := { currentPath := "", filesScanned := 0, bytesScanned := 0,
                  totalBytes := 0, errors := [], complete := false,
                  icloudFilesSkipped := 0 }
    lastProgressUpdate := 0
    skippedVolumes := []
    startDeviceID := 0
    seenInodes := []
    sent := []
    nUpd := 0
    nPolls := 0 }

/-- `filepath.Join` on the already-clean absolute paths the scanner builds. -/
def joinPath (p : String) (n : String) : String :=
  p ++ ("/") ++ n

/-- Whether one character list starts with another (`strings.HasPrefix` over
the underlying characters; `String.startsWith` itself does not reduce in the
kernel). -/
def charsStartWith : List Char → List Char → Bool
  | _, [] => true
  | [], _ :: _ => false
  | a :: as, b :: bs => a == b && charsStartWith as bs

/-- `strings.HasPrefix`. -/
def hasPrefixStr (s pat : String) : Bool :=
  charsStartWith s.toList pat.toList

/-- `strings.HasSuffix`. -/
def hasSuffixStr (s pat : String) : Bool :=
  charsStartWith s.toList.reverse pat.toList.reverse

/-- Mirror of `isICloudPlaceholder` (scanner.go lines 998-1001):
`strings.HasPrefix(name, ".") && strings.HasSuffix(name, ".icloud")`. -/
def isICloudPlaceholder (name : String) : Bool :=
  hasPrefixStr name (".") && hasSuffixStr name (".icloud")

/-- Mirror of `Scanner.recordError` (scanner.go lines 912-917). -/
def recordError (st : SState) (msg : String) : SState :=
  { st with progress := { st.progress with errors := st.progress.errors ++ [msg] } }

/-- Mirror of `Scanner.hasSeenInode` (scanner.go lines 976-984). The mutex
makes the lookup individually atomic; the model state is the table. -/
def hasSeenInode (st : SState) (deviceID : Nat) (inode : Nat) : Bool :=
  st.seenInodes.contains (deviceID, inode)

/-- Mirror of `Scanner.markInodeSeen` (scanner.go lines 987-995). -/
def markInodeSeen (st : SState) (deviceID : Nat) (inode : Nat) : SState :=
  { st with seenInodes := st.seenInodes ++ [(deviceID, inode)] }

/-- Mirror of `Scanner.readDirWithTimeout` (scanner.go lines 921-943): the
listing result, with the timeout case turned into the formatted timeout error
(`dirReadTimeout` is 5s, so `%v` prints `5s`). -/
def readDirWithTimeout (path : String) (fsn : FSNode) :
    Except String (List FSNode) :=
  match fsn.readRes with
  | .ok => .ok fsn.children
  | .failMsg m => .error m
  | .timeout => .error (("timeout reading directory (>5s): ") ++ path)

/-- Mirror of `Scanner.shouldSkipFilesystemBoundary` (scanner.go lines
1003-1020). `getDeviceID` performs the same `os.Stat` as `getDeviceAndInode`,
so the model reads the device from the entry's `devIno` field; a failed stat
yields no skip. -/
def shouldSkipFilesystemBoundary (env : ScanEnv) (st : SState) (e : FSNode) :
    Option String :=
  if !env.oneFilesystem then none
  else
    match e.devIno with
    | none => none
    | some (d, _) =>
      if d ≠ st.startDeviceID then
        some (("different filesystem (device ") ++ toString d ++ (")"))
      else none

/-- Mirror of `Scanner.updateProgress` (scanner.go lines 891-909): always
update the current path and the files counter; flush a snapshot only when a
progress channel exists and over 100ms elapsed since the last flush or the
counter hit a multiple of 100; the send is non-blocking, so a full channel
drops the snapshot. -/
def updateProgress (env : ScanEnv) (st : SState) (currentPath : String) :
    SState :=
  let pr := { st.progress with currentPath := currentPath,
                               filesScanned := st.progress.filesScanned + 1 }
  let st := { st with progress := pr }
  let now := env.timeAt st.nUpd
  if env.hasChan ∧ (now - st.lastProgressUpdate > 100 ∨ pr.filesScanned % 100 = 0) then
    let st := { st with lastProgressUpdate := now }
    let st := if env.chanFreeAt st.nUpd then { st with sent := st.sent ++ [pr] } else st
    { st with nUpd := st.nUpd + 1 }
  else { st with nUpd := st.nUpd + 1 }

/-- Append one record to `skippedVolumes` the way both scan loops do:
`s.skippedVolumes = append(s.skippedVolumes, fullPath+" ("+reason+")")`. -/
def addSkip (st : SState) (entry : String) : SState :=
  { st with skippedVolumes := st.skippedVolumes ++ [entry] }

/-- The body of the per-entry processing shared verbatim by the loops of
`scanDirectoryParallel` (scanner.go lines 730-785) and
`scanDirectorySequential` (scanner.go lines 829-881), up to the point where a
child node is attached: iCloud-placeholder filter, throttled progress update,
volume-checker skip, `entry.Info()` stat, and for directories the
alias/firmlink dedup check followed by the filesystem-boundary check.
Returns the updated state and, when the entry survives, the freshly built
child node together with its `IsDir` flag (the caller recurses on
directories). -/
def processEntryCore (env : ScanEnv) (st : SState) (parentPath : String)
    (e : FSNode) : SState × Option (FileNode × Bool) :=
  let entryName := e.name
  let fullPath := joinPath parentPath entryName
  if isICloudPlaceholder entryName then
    ({ st with progress := { st.progress with
        icloudFilesSkipped := st.progress.icloudFilesSkipped + 1 } }, none)
  else
    let st := updateProgress env st fullPath
    match e.volSkip with
    | some reason => (addSkip st (fullPath ++ (" (") ++ reason ++ (")")), none)
    | none =>
      match e.infoRes with
      | .error m =>
        (recordError st (("cannot stat ") ++ fullPath ++ (": ") ++ m), none)
      | .ok info =>
        if info.isDir then
          match e.devIno with
          | some (d, i) =>
            if hasSeenInode st d i then
              (addSkip st (fullPath ++ (" (alias/firmlink)")), none)
            else
              let st := markInodeSeen st d i
              match shouldSkipFilesystemBoundary env st e with
              | some reason =>
                (addSkip st (fullPath ++ (" (") ++ reason ++ (")")), none)
              | none =>
                (st, some (NewFileNode fullPath info.size true info.modTime, true))
          | none =>
            match shouldSkipFilesystemBoundary env st e with
            | some reason =>
              (addSkip st (fullPath ++ (" (") ++ reason ++ (")")), none)
            | none =>
              (st, some (NewFileNode fullPath info.size true info.modTime, true))
        else
          (st, some (NewFileNode fullPath info.size false info.modTime, false))

mutual
/-- Mirror of `Scanner.scanDirectorySequential` (scanner.go lines 806-888):
poll cancellation, read the directory with the timeout guard (a failure is
recorded and leaves the directory with zero children), then run the entry
loop. Instead of mutating `node.Children`, the model returns the list of
children built for the node. -/
def scanDirectorySequential (env : ScanEnv) (st : SState) (fsn : FSNode)
    (path : String) : SState × List FileNode :=
  let pc := pollCancel env st
  if pc.1 then (pc.2, [])
  else
    match h : readDirWithTimeout path fsn with
    | .error m =>
      (recordError pc.2 (("cannot read directory ") ++ path ++ (": ") ++ m), [])
    | .ok entries => scanDirectorySequentialLoop env pc.2 path entries
termination_by 2 * sizeOf fsn + 1
decreasing_by
  cases fsn with
  | mk nm i d v r c =>
    cases r <;> simp [readDirWithTimeout, FSNode.readRes, FSNode.children] at h
    subst h
    simp_arith

/-- The `for _, entry := range entries` loop of `scanDirectorySequential`:
poll cancellation at the top of every iteration, process the entry, and
recurse into it sequentially when it is a directory. -/
def scanDirectorySequentialLoop (env : ScanEnv) (st : SState)
    (parentPath : String) (l : List FSNode) : SState × List FileNode :=
  match l with
  | [] => (st, [])
  | e :: rest =>
    let pc := pollCancel env st
    if pc.1 then (pc.2, [])
    else
      match processEntryCore env pc.2 parentPath e with
      | (st1, none) => scanDirectorySequentialLoop env st1 parentPath rest
      | (st1, some (node, isDir)) =>
        let r :=
          if isDir then
            let rc := scanDirectorySequential env st1 e node.path
            (rc.1, node.withChildren rc.2)
          else (st1, node)
        let rr := scanDirectorySequentialLoop env r.1 parentPath rest
        (rr.1, r.2 :: rr.2)
termination_by 2 * sizeOf l
end

mutual
/-- Mirror of `Scanner.scanDirectoryParallel` (scanner.go lines 694-803):
poll cancellation, acquire the worker semaphore, read the directory with the
timeout guard, release the semaphore, then either run the parallel fan-out
loop (depth < 2) or fall back to `scanDirectorySequential` — which re-reads
the directory, exactly as the source does. The semaphore has no observable
effect under the linearized schedule and is modelled by `TaskC` below. -/
def scanDirectoryParallel (env : ScanEnv) (st : SState) (fsn : FSNode)
    (path : String) (depth : Nat) : SState × List FileNode :=
  let pc := pollCancel env st
  if pc.1 then (pc.2, [])
  else
    match h : readDirWithTimeout path fsn with
    | .error m =>
      let st1 := recordError pc.2 (("cannot read directory ") ++ path ++ (": ") ++ m)
      if depth < 2 then scanDirectoryParallelLoop env st1 path [] depth
      else scanDirectorySequential env st1 fsn path
    | .ok entries =>
      if depth < 2 then scanDirectoryParallelLoop env pc.2 path entries depth
      else scanDirectorySequential env pc.2 fsn path
termination_by 2 * sizeOf fsn + 3
decreasing_by
  all_goals
    first
    | omega
    | (simp_arith; done)
    | (cases fsn with
       | mk nm i d v r c =>
         cases r <;> simp [readDirWithTimeout, FSNode.readRes, FSNode.children] at h
         subst h
         simp_arith
       done)

/-- The `for _, entry := range entries` loop of `scanDirectoryParallel`
(depth < 2): poll cancellation at the top of every iteration, process the
entry, attach the node, and for directories spawn
`go scanDirectoryParallel(child, depth+1)`. Spawned goroutines are linearized
at the spawn point. -/
def scanDirectoryParallelLoop (env : ScanEnv) (st : SState)
    (parentPath : String) (l : List FSNode) (depth : Nat) :
    SState × List FileNode :=
  match l with
  | [] => (st, [])
  | e :: rest =>
    let pc := pollCancel env st
    if pc.1 then (pc.2, [])
    else
      match processEntryCore env pc.2 parentPath e with
      | (st1, none) => scanDirectoryParallelLoop env st1 parentPath rest depth
      | (st1, some (node, isDir)) =>
        let r :=
          if isDir then
            let rc := scanDirectoryParallel env st1 e node.path (depth + 1)
            (rc.1, node.withChildren rc.2)
          else (st1, node)
        let rr := scanDirectoryParallelLoop env r.1 parentPath rest depth
        (rr.1, r.2 :: rr.2)
termination_by 2 * sizeOf l
decreasing_by
  all_goals
    (have hc : sizeOf (e :: rest) = 1 + sizeOf e + sizeOf rest := by simp_arith
     have hr : 1 ≤ sizeOf rest := by cases rest <;> simp_arith
     omega)
end

/-- What `Scanner.Scan` hands back: the returned root pointer (`nil` = `none`),
the returned `error` (as its message), the final scanner state (whose
`progress.errors` and `skippedVolumes` are the accumulated outcome lists), and
whether the progress channel was closed. -/
structure ScanResult where
  tree : Option FileNode
  err : Option String
  state : SState
  chanClosed : Bool

/-- Mirror of `Scanner.Scan` (scanner.go lines 638-691): normalize the path,
stat the root (failure returns an error and no tree), record the starting
device when `oneFilesystem` is set, build the root node, run
`scanDirectoryParallel` at depth 0 for a directory root, then check
`ctx.Err()`: when cancelled, mark the progress incomplete and return the
partial tree together with the context error; otherwise mark complete, send a
final snapshot non-blockingly and close the progress channel. -/
def Scan (env : ScanEnv) : ScanResult :=
  if !env.absOk then ⟨none, some ("invalid path"), initState, false⟩
  else
    match env.rootInfo with
    | none => ⟨none, some ("cannot access path"), initState, false⟩
    | some info =>
      if env.oneFilesystem ∧ env.rootDev = none then
        ⟨none, some ("cannot get device ID"), initState, false⟩
      else
        let st1 := if env.oneFilesystem then
                     { initState with startDeviceID := env.rootDev.getD 0 }
                   else initState
        let rootNode := NewFileNode env.rootPath info.size info.isDir info.modTime
        let r := if info.isDir then
                   scanDirectoryParallel env st1 env.rootFS env.rootPath 0
                 else (st1, [])
        let rootNode := rootNode.withChildren r.2
        let pc := pollCancel env r.1
        if pc.1 then
          let st4 := { pc.2 with progress := { pc.2.progress with complete := false } }
          ⟨some rootNode, some ("context canceled"), st4, false⟩
        else
          let st4 := { pc.2 with progress := { pc.2.progress with complete := true } }
          if env.hasChan then
            let st5 := if env.finalChanFree then { st4 with sent := st4.sent ++ [st4.progress] }
                       else st4
            ⟨some rootNode, none, st5, true⟩
          else ⟨some rootNode, none, st4, false⟩

/-! ## Task-system model of the bounded-parallel traversal

`scanDirectoryParallel` spawns one goroutine per child directory and bounds
concurrent directory reads with the channel semaphore `workerSem` of capacity
8 (scanner.go lines 591, 606, 614). One goroutine's life, per the source, is:

* acquire a semaphore slot (line 703);
* run `readDirWithTimeout` — which always returns within the 5s deadline —
  and release the slot immediately afterwards (lines 705-708), before any
  child goroutine is spawned (line 791) or awaited (line 798);
* at depth < 2, spawn one goroutine per child directory and wait for them;
  at depth ≥ 2, recurse sequentially on the same goroutine, which performs no
  semaphore operation (lines 806-888) and terminates.

`TaskC` is the state of one such goroutine together with the goroutines it
spawned; the `Step` relation is the interleaving semantics, with the
semaphore constraint threaded as the number of slots held outside the
sub-configuration being stepped. -/

/-- The directory skeleton of a filesystem tree: only which directories have
which child directories matters to the worker-pool dynamics. -/
inductive DirTree where
  | node (children : List DirTree)

def DirTree.children : DirTree → List DirTree
  | .node cs => cs

/-- The children a goroutine at the given depth fans out to: below depth 2 the
source switches to sequential in-task recursion and spawns nothing. -/
def pendingOf (t : DirTree) (depth : Nat) : List DirTree :=
  if depth < 2 then t.children else []

/-- State of one traversal goroutine (and, recursively, of the goroutines it
spawned): `start` = before acquiring a slot, `reading` = holding a slot inside
`readDirWithTimeout`, `running sp pending` = slot released, goroutines `sp`
spawned so far, `pending` child directories still to spawn, `waiting` =
blocked in `wg.Wait()`, `done` = returned. -/
inductive TaskC where
  | start (t : DirTree) (depth : Nat)
  | reading (t : DirTree) (depth : Nat)
  | running (sp : List TaskC) (pending : List DirTree) (depth : Nat)
  | waiting (sp : List TaskC)
  | done

mutual
/-- Number of semaphore slots held inside a task configuration. -/
def holdsC : TaskC → Nat
  | .start _ _ => 0
  | .reading _ _ => 1
  | .running sp _ _ => holdsL sp
  | .waiting sp => holdsL sp
  | .done => 0

def holdsL : List TaskC → Nat
  | [] => 0
  | c :: cs => holdsC c + holdsL cs
end

/-- Whether a task configuration has fully returned (a task still in
`wg.Wait()` has not). -/
def isDoneC : TaskC → Bool
  | .done => true
  | _ => false

/-- Whether every task of a list has returned. -/
def isDoneL : List TaskC → Bool
  | [] => true
  | c :: cs => isDoneC c && isDoneL cs

mutual
/-- Interleaving semantics of the goroutine system. `Step cap o c c'` is one
step of the configuration `c` while `o` slots of the capacity-`cap` semaphore
are held by goroutines outside `c`.

`readDone` is where the source's release-before-recurse ordering lives: the
slot is given back in the same transition that completes the directory read,
so the successor `running [] _ _` holds no slot and has spawned nothing yet. -/
inductive Step (cap : Nat) : Nat → TaskC → TaskC → Prop where
  | acquire {o : Nat} {t : DirTree} {d : Nat} :
      o < cap → Step cap o (.start t d) (.reading t d)
  | readDone {o : Nat} {t : DirTree} {d : Nat} :
      Step cap o (.reading t d) (.running [] (pendingOf t d) d)
  | spawn {o : Nat} {sp : List TaskC} {c : DirTree} {rest : List DirTree} {d : Nat} :
      Step cap o (.running sp (c :: rest) d) (.running (.start c (d + 1) :: sp) rest d)
  | beginWait {o : Nat} {sp : List TaskC} {d : Nat} :
      Step cap o (.running sp [] d) (.waiting sp)
  | finish {o : Nat} {sp : List TaskC} :
      isDoneL sp = true → Step cap o (.waiting sp) .done
  | stepInRun {o : Nat} {sp sp' : List TaskC} {pending : List DirTree} {d : Nat} :
      StepL cap o sp sp' → Step cap o (.running sp pending d) (.running sp' pending d)
  | stepInWait {o : Nat} {sp sp' : List TaskC} :
      StepL cap o sp sp' → Step cap o (.waiting sp) (.waiting sp')

/-- One of the tasks in a list steps; the slots held by the other tasks of
the list count towards the outside total. -/
inductive StepL (cap : Nat) : Nat → List TaskC → List TaskC → Prop where
  | head {o : Nat} {c c' : TaskC} {rest : List TaskC} :
      Step cap (o + holdsL rest) c c' → StepL cap o (c :: rest) (c' :: rest)
  | tail {o : Nat} {c : TaskC} {rest rest' : List TaskC} :
      StepL cap (o + holdsC c) rest rest' → StepL cap o (c :: rest) (c :: rest')
end

mutual
/-- Remaining-work measure on directory trees: each directory costs four
transitions (acquire, readDone, beginWait, finish) plus one spawn per child
plus its child's work. -/
def measT : DirTree → Nat
  | .node cs => 4 + measTL cs

def measTL : List DirTree → Nat
  | [] => 0
  | c :: cs => 1 + measT c + measTL cs
end

/-- Spawn cost of a pending list, depth-adjusted. -/
def measPend (t : DirTree) (depth : Nat) : Nat :=
  measTL (pendingOf t depth)

mutual
/-- Remaining-work measure on task configurations; every `Step` decreases it
by exactly one. -/
def measC : TaskC → Nat
  | .start t d => 3 + measPend t d + 1
  | .reading t d => 2 + measPend t d + 1
  | .running sp pending _ => 2 + measTL pending + measL sp
  | .waiting sp => 1 + measL sp
  | .done => 0

def measL : List TaskC → Nat
  | [] => 0
  | c :: cs => measC c + measL cs
end

/-! ## Interleaving model of the inode check-then-mark sequence

`hasSeenInode` and `markInodeSeen` (scanner.go lines 976-995) each take and
release `seenInodesMu` on their own, so each call is atomic but the
check-then-mark *sequence* in the entry loops (lines 761-771) is not: between
one goroutine's check and its mark, another goroutine scanning an alias of the
same physical directory may run its own check. Two goroutines at depth < 2
process entries of different parents concurrently, so the interleaving below
is reachable. Each traverser runs, for one entry whose `(device, inode)` pair
is the shared `p`: `r := hasSeenInode(p); if r { record alias skip } else
{ markInodeSeen(p); descend }`. -/

/-- One traverser processing an entry aliasing the shared pair: its program
counter, the seen-flag it read, and what it ended up doing. -/
structure AliasTask where
  pc : Nat
  saw : Bool
  descended : Bool
  skippedAlias : Bool
deriving Repr, DecidableEq

def aliasTaskInit : AliasTask :=
  { pc := 0, saw := false, descended := false, skippedAlias := false }

/-- One atomic action of a traverser against the shared `seenInodes` entry for
the pair: at pc 0 it runs `hasSeenInode` (one critical section); at pc 1 it
acts on what it saw — `markInodeSeen` (another critical section) and descend,
or record the alias/firmlink skip. -/
def aliasStep (seen : Bool) (t : AliasTask) : Bool × AliasTask :=
  match t.pc with
  | 0 => (seen, { t with pc := 1, saw := seen })
  | 1 =>
    if t.saw then (seen, { t with pc := 2, skippedAlias := true })
    else (true, { t with pc := 2, descended := true })
  | _ => (seen, t)

/-- Run two traversers under a schedule (the list of which traverser performs
the next atomic action). -/
def aliasRun : List Bool → Bool × AliasTask × AliasTask → Bool × AliasTask × AliasTask
  | [], s => s
  | pick :: rest, (seen, t0, t1) =>
    if pick then
      let r := aliasStep seen t1
      aliasRun rest (r.1, t0, r.2)
    else
      let r := aliasStep seen t0
      aliasRun rest (r.1, r.2, t1)

/-! ## Concrete inputs used by witnesses and counterexamples -/

/-- A concrete tree for the C6 witness: a directory holding a 10-byte file
and a subdirectory holding a 20-byte file. -/
def c6Tree : FileNode :=
  .mk ("/r") ("r") 0 true 0 ("directory")
    [.mk ("/r/a.txt") ("a.txt") 10 false 0 (".txt") [],
     .mk ("/r/sub") ("sub") 128 true 0 ("directory")
       [.mk ("/r/sub/b.txt") ("b.txt") 20 false 0 (".txt") []]]

/-- Environment for the C7 witness: channel present and free, clock far past
the last flush. -/
def c7Env : ScanEnv :=
  { rootPath := ("/r"), absOk := true, rootInfo := none, rootDev := none,
    rootFS := .mk ("r") (.error ("")) none none .ok [],
    oneFilesystem := true, hasChan := true,
    timeAt := fun _ => 200, chanFreeAt := fun _ => true,
    finalChanFree := true, cancelFrom := none }

/-- Environment for the C5 witness: a healthy directory root, a context
cancelled before the first poll. -/
def c5Env : ScanEnv :=
  { rootPath := ("/r"), absOk := true,
    rootInfo := some { size := 0, modTime := 0, isDir := true },
    rootDev := some 1,
    rootFS := .mk ("r") (.ok { size := 0, modTime := 0, isDir := true })
      (some (1, 1)) none .ok [],
    oneFilesystem := true, hasChan := true,
    timeAt := fun _ => 0, chanFreeAt := fun _ => true,
    finalChanFree := true, cancelFrom := some 0 }

/-- Environment for the C3 counterexample: the root path resolves and stats
fine (a plain file), but the context is cancelled, so `Scan` returns the
context error — a non-nil error outside the fatal-root case. -/
def c3Env : ScanEnv :=
  { rootPath := ("/r/f.txt"), absOk := true,
    rootInfo := some { size := 5, modTime := 0, isDir := false },
    rootDev := some 1,
    rootFS := .mk ("f.txt") (.ok { size := 5, modTime := 0, isDir := false })
      (some (1, 1)) none .ok [],
    oneFilesystem := true, hasChan := true,
    timeAt := fun _ => 0, chanFreeAt := fun _ => true,
    finalChanFree := true, cancelFrom := some 0 }

/-- Environment for the C4 failing input: `/r/a/b` is a directory at depth 2
(a grandchild of the root) whose listing times out; its sibling `/r/a/c.txt`
is a healthy file. -/
def c4Env : ScanEnv :=
  { rootPath := ("/r"), absOk := true,
    rootInfo := some { size := 0, modTime := 0, isDir := true },
    rootDev := some 1,
    rootFS := .mk ("r") (.ok { size := 0, modTime := 0, isDir := true })
      (some (1, 1)) none .ok
      [.mk ("a") (.ok { size := 0, modTime := 0, isDir := true })
        (some (1, 2)) none .ok
        [.mk ("b") (.ok { size := 0, modTime := 0, isDir := true })
          (some (1, 3)) none .timeout [],
         .mk ("c.txt") (.ok { size := 7, modTime := 0, isDir := false })
          (some (1, 4)) none .ok []]],
    oneFilesystem := true, hasChan := false,
    timeAt := fun _ => 0, chanFreeAt := fun _ => false,
    finalChanFree := false, cancelFrom := none }

/-- Environment for the C8 counterexample: `/r/x` and `/r/y` are two logical
paths of one physical directory (same device/inode `(2, 5)`) lying on a
different device than the root's device 1. -/
def c8Env : ScanEnv :=
  { rootPath := ("/r"), absOk := true,
    rootInfo := some { size := 0, modTime := 0, isDir := true },
    rootDev := some 1,
    rootFS := .mk ("r") (.ok { size := 0, modTime := 0, isDir := true })
      (some (1, 1)) none .ok
      [.mk ("x") (.ok { size := 0, modTime := 0, isDir := true })
        (some (2, 5)) none .ok [],
       .mk ("y") (.ok { size := 0, modTime := 0, isDir := true })
        (some (2, 5)) none .ok []],
    oneFilesystem := true, hasChan := false,
    timeAt := fun _ => 0, chanFreeAt := fun _ => false,
    finalChanFree := false, cancelFrom := none }

/-- The `/r/x` entry of `c8Env`, used by the C8 witness. -/
def c8XNode : FSNode :=
  .mk ("x") (.ok { size := 0, modTime := 0, isDir := true }) (some (2, 5)) none .ok []

/-- Whether `pat` occurs as a contiguous sublist of `l`. -/
def hasSubChars : List Char → List Char → Bool
  | [], pat => charsStartWith [] pat
  | a :: t, pat => charsStartWith (a :: t) pat || hasSubChars t pat

/-- Whether `pat` occurs as a substring of `s`. -/
def containsSubstr (s pat : String) : Bool :=
  hasSubChars s.toList pat.toList

/-- The directory skeleton for the C1 witness: branching wider than one
worker slot and three levels deep. -/
def c1Tree : DirTree :=
  .node [.node [.node [], .node []], .node [.node []], .node []]

/-! ## Predicates used by the theorems -/

/-- The two shapes of error message the scanner ever records: the
`"cannot read directory %s: %w"` of both scan loops and the
`"cannot stat %s: %w"` of the entry stat (scanner.go lines 711, 754, 816,
853). In particular no recorded error mentions cancellation. -/
def isScanErrorMsg (e : String) : Prop :=
  (∃ p m, e = ("cannot read directory ") ++ p ++ (": ") ++ m) ∨
  (∃ p m, e = ("cannot stat ") ++ p ++ (": ") ++ m)

/-- Invariant relation between a scanner state and any later state of the
same traversal: the bytes counter, the start device and the complete flag are
untouched, every new error is a read or stat error, and every new snapshot
copies the (unchanged) bytes counter. -/
def Preserves (stOld stNew : SState) : Prop :=
  stNew.progress.bytesScanned = stOld.progress.bytesScanned ∧
  stNew.startDeviceID = stOld.startDeviceID ∧
  stNew.progress.complete = stOld.progress.complete ∧
  (∀ e ∈ stNew.progress.errors, e ∈ stOld.progress.errors ∨ isScanErrorMsg e) ∧
  (∀ p ∈ stNew.sent, p ∈ stOld.sent ∨ p.bytesScanned = stOld.progress.bytesScanned)

/-- The fatal-root condition of `Scan`: path resolution fails, the root stat
fails, or (with `oneFilesystem`) the root device lookup fails. -/
def rootFailB (env : ScanEnv) : Bool :=
  !env.absOk || env.rootInfo.isNone || (env.oneFilesystem && env.rootDev.isNone)

/-! ## Theorems -/

theorem Preserves.refl (st : SState) : Preserves st st :=
  ⟨rfl, rfl, rfl, fun _ he => Or.inl he, fun _ hp => Or.inl hp⟩

theorem Preserves.trans {a b c : SState} (h1 : Preserves a b) (h2 : Preserves b c) :
    Preserves a c := by
  obtain ⟨hb1, hs1, hc1, he1, hp1⟩ := h1
  obtain ⟨hb2, hs2, hc2, he2, hp2⟩ := h2
  refine ⟨hb2.trans hb1, hs2.trans hs1, hc2.trans hc1, fun e he => ?_, fun p hp => ?_⟩
  · rcases he2 e he with h | h
    · exact he1 e h
    · exact Or.inr h
  · rcases hp2 p hp with h | h
    · exact hp1 p h
    · exact Or.inr (h.trans hb1)

theorem preserves_pollCancel (env : ScanEnv) (st : SState) :
    Preserves st (pollCancel env st).2 :=
  ⟨rfl, rfl, rfl, fun _ he => Or.inl he, fun _ hp => Or.inl hp⟩

theorem preserves_updateProgress (env : ScanEnv) (st : SState) (p : String) :
    Preserves st (updateProgress env st p) := by
  unfold updateProgress
  dsimp only
  split
  · split
    · refine ⟨rfl, rfl, rfl, fun e he => Or.inl he, fun q hq => ?_⟩
      rcases List.mem_append.mp hq with h | h
      · exact Or.inl h
      · simp only [List.mem_singleton] at h
        subst h
        exact Or.inr rfl
    · exact ⟨rfl, rfl, rfl, fun _ he => Or.inl he, fun _ hp => Or.inl hp⟩
  · exact ⟨rfl, rfl, rfl, fun _ he => Or.inl he, fun _ hp => Or.inl hp⟩

theorem preserves_recordError (st : SState) (m : String) (h : isScanErrorMsg m) :
    Preserves st (recordError st m) := by
  refine ⟨rfl, rfl, rfl, fun e he => ?_, fun _ hp => Or.inl hp⟩
  rcases List.mem_append.mp he with h1 | h1
  · exact Or.inl h1
  · simp only [List.mem_singleton] at h1
    subst h1
    exact Or.inr h

theorem preserves_addSkip (st : SState) (s : String) : Preserves st (addSkip st s) :=
  ⟨rfl, rfl, rfl, fun _ he => Or.inl he, fun _ hp => Or.inl hp⟩

theorem preserves_markInodeSeen (st : SState) (d i : Nat) :
    Preserves st (markInodeSeen st d i) :=
  ⟨rfl, rfl, rfl, fun _ he => Or.inl he, fun _ hp => Or.inl hp⟩

theorem scanSeq_cancel (env : ScanEnv) (st : SState) (fsn : FSNode) (path : String)
    (h : (pollCancel env st).1 = true) :
    scanDirectorySequential env st fsn path = ((pollCancel env st).2, []) := by
  rw [scanDirectorySequential]
  simp only [h, if_true]

theorem scanSeq_readErr (env : ScanEnv) (st : SState) (fsn : FSNode) (path : String)
    (m : String) (h : (pollCancel env st).1 = false)
    (hm : readDirWithTimeout path fsn = .error m) :
    scanDirectorySequential env st fsn path =
      (recordError (pollCancel env st).2
        (("cannot read directory ") ++ path ++ (": ") ++ m), []) := by
  rw [scanDirectorySequential]
  simp only [h, Bool.false_eq_true, if_false]
  split <;> simp_all

theorem scanSeq_readOk (env : ScanEnv) (st : SState) (fsn : FSNode) (path : String)
    (entries : List FSNode) (h : (pollCancel env st).1 = false)
    (hm : readDirWithTimeout path fsn = .ok entries) :
    scanDirectorySequential env st fsn path =
      scanDirectorySequentialLoop env (pollCancel env st).2 path entries := by
  rw [scanDirectorySequential]
  simp only [h, Bool.false_eq_true, if_false]
  split <;> simp_all

theorem scanSeqLoop_nil (env : ScanEnv) (st : SState) (parentPath : String) :
    scanDirectorySequentialLoop env st parentPath [] = (st, []) := by
  rw [scanDirectorySequentialLoop]

theorem scanSeqLoop_cancel (env : ScanEnv) (st : SState) (parentPath : String)
    (e : FSNode) (rest : List FSNode) (h : (pollCancel env st).1 = true) :
    scanDirectorySequentialLoop env st parentPath (e :: rest) =
      ((pollCancel env st).2, []) := by
  rw [scanDirectorySequentialLoop]
  simp only [h, if_true]

theorem scanSeqLoop_skip (env : ScanEnv) (st st1 : SState) (parentPath : String)
    (e : FSNode) (rest : List FSNode) (h : (pollCancel env st).1 = false)
    (hp : processEntryCore env (pollCancel env st).2 parentPath e = (st1, none)) :
    scanDirectorySequentialLoop env st parentPath (e :: rest) =
      scanDirectorySequentialLoop env st1 parentPath rest := by
  rw [scanDirectorySequentialLoop]
  simp only [h, hp, Bool.false_eq_true, if_false]

theorem scanSeqLoop_node (env : ScanEnv) (st st1 : SState) (parentPath : String)
    (e : FSNode) (rest : List FSNode) (node : FileNode) (isDir : Bool)
    (h : (pollCancel env st).1 = false)
    (hp : processEntryCore env (pollCancel env st).2 parentPath e =
      (st1, some (node, isDir))) :
    scanDirectorySequentialLoop env st parentPath (e :: rest) =
      (if isDir then
        (let rc := scanDirectorySequential env st1 e node.path
         let rr := scanDirectorySequentialLoop env rc.1 parentPath rest
         (rr.1, node.withChildren rc.2 :: rr.2))
       else
        (let rr := scanDirectorySequentialLoop env st1 parentPath rest
         (rr.1, node :: rr.2))) := by
  rw [scanDirectorySequentialLoop]
  simp only [h, hp, Bool.false_eq_true, if_false]
  cases isDir <;> simp

theorem scanPar_cancel (env : ScanEnv) (st : SState) (fsn : FSNode) (path : String)
    (depth : Nat) (h : (pollCancel env st).1 = true) :
    scanDirectoryParallel env st fsn path depth = ((pollCancel env st).2, []) := by
  rw [scanDirectoryParallel]
  simp only [h, if_true]

theorem scanPar_readErr_shallow (env : ScanEnv) (st : SState) (fsn : FSNode)
    (path : String) (depth : Nat) (m : String) (h : (pollCancel env st).1 = false)
    (hd : depth < 2) (hm : readDirWithTimeout path fsn = .error m) :
    scanDirectoryParallel env st fsn path depth =
      (recordError (pollCancel env st).2
        (("cannot read directory ") ++ path ++ (": ") ++ m), []) := by
  rw [scanDirectoryParallel]
  simp only [h, hd, Bool.false_eq_true, if_false, if_true]
  split <;> simp_all
  rw [scanDirectoryParallelLoop.eq_def]

theorem scanPar_readErr_deep (env : ScanEnv) (st : SState) (fsn : FSNode)
    (path : String) (depth : Nat) (m : String) (h : (pollCancel env st).1 = false)
    (hd : ¬depth < 2) (hm : readDirWithTimeout path fsn = .error m) :
    scanDirectoryParallel env st fsn path depth =
      scanDirectorySequential env
        (recordError (pollCancel env st).2
          (("cannot read directory ") ++ path ++ (": ") ++ m)) fsn path := by
  rw [scanDirectoryParallel]
  simp only [h, hd, Bool.false_eq_true, if_false]
  split <;> simp_all

theorem scanPar_readOk_shallow (env : ScanEnv) (st : SState) (fsn : FSNode)
    (path : String) (depth : Nat) (entries : List FSNode)
    (h : (pollCancel env st).1 = false) (hd : depth < 2)
    (hm : readDirWithTimeout path fsn = .ok entries) :
    scanDirectoryParallel env st fsn path depth =
      scanDirectoryParallelLoop env (pollCancel env st).2 path entries depth := by
  rw [scanDirectoryParallel]
  simp only [h, hd, Bool.false_eq_true, if_false, if_true]
  split <;> simp_all

theorem scanPar_readOk_deep (env : ScanEnv) (st : SState) (fsn : FSNode)
    (path : String) (depth : Nat) (entries : List FSNode)
    (h : (pollCancel env st).1 = false) (hd : ¬depth < 2)
    (hm : readDirWithTimeout path fsn = .ok entries) :
    scanDirectoryParallel env st fsn path depth =
      scanDirectorySequential env (pollCancel env st).2 fsn path := by
  rw [scanDirectoryParallel]
  simp only [h, hd, Bool.false_eq_true, if_false]
  split <;> simp_all

theorem scanParLoop_nil (env : ScanEnv) (st : SState) (parentPath : String)
    (depth : Nat) :
    scanDirectoryParallelLoop env st parentPath [] depth = (st, []) := by
  rw [scanDirectoryParallelLoop.eq_def]

theorem scanParLoop_cancel (env : ScanEnv) (st : SState) (parentPath : String)
    (e : FSNode) (rest : List FSNode) (depth : Nat)
    (h : (pollCancel env st).1 = true) :
    scanDirectoryParallelLoop env st parentPath (e :: rest) depth =
      ((pollCancel env st).2, []) := by
  rw [scanDirectoryParallelLoop.eq_def]
  simp only [h, if_true]

theorem scanParLoop_skip (env : ScanEnv) (st st1 : SState) (parentPath : String)
    (e : FSNode) (rest : List FSNode) (depth : Nat)
    (h : (pollCancel env st).1 = false)
    (hp : processEntryCore env (pollCancel env st).2 parentPath e = (st1, none)) :
    scanDirectoryParallelLoop env st parentPath (e :: rest) depth =
      scanDirectoryParallelLoop env st1 parentPath rest depth := by
  rw [scanDirectoryParallelLoop.eq_def]
  simp only [h, hp, Bool.false_eq_true, if_false]

theorem scanParLoop_node (env : ScanEnv) (st st1 : SState) (parentPath : String)
    (e : FSNode) (rest : List FSNode) (depth : Nat) (node : FileNode) (isDir : Bool)
    (h : (pollCancel env st).1 = false)
    (hp : processEntryCore env (pollCancel env st).2 parentPath e =
      (st1, some (node, isDir))) :
    scanDirectoryParallelLoop env st parentPath (e :: rest) depth =
      (if isDir then
        (let rc := scanDirectoryParallel env st1 e node.path (depth + 1)
         let rr := scanDirectoryParallelLoop env rc.1 parentPath rest depth
         (rr.1, node.withChildren rc.2 :: rr.2))
       else
        (let rr := scanDirectoryParallelLoop env st1 parentPath rest depth
         (rr.1, node :: rr.2))) := by
  rw [scanDirectoryParallelLoop.eq_def]
  simp only [h, hp, Bool.false_eq_true, if_false]
  cases isDir <;> simp

theorem preserves_processEntryCore (env : ScanEnv) (st : SState)
    (parentPath : String) (e : FSNode) :
    Preserves st (processEntryCore env st parentPath e).1 := by
  unfold processEntryCore
  dsimp only
  split
  · exact ⟨rfl, rfl, rfl, fun _ he => Or.inl he, fun _ hp => Or.inl hp⟩
  · split
    · exact (preserves_updateProgress env st _).trans (preserves_addSkip _ _)
    · split
      · refine (preserves_updateProgress env st _).trans (preserves_recordError _ _ ?_)
        exact Or.inr ⟨_, _, rfl⟩
      · split
        · split
          · split
            · exact (preserves_updateProgress env st _).trans (preserves_addSkip _ _)
            · split
              · exact ((preserves_updateProgress env st _).trans
                  (preserves_markInodeSeen _ _ _)).trans (preserves_addSkip _ _)
              · exact (preserves_updateProgress env st _).trans
                  (preserves_markInodeSeen _ _ _)
          · split
            · exact (preserves_updateProgress env st _).trans (preserves_addSkip _ _)
            · exact preserves_updateProgress env st _
        · exact preserves_updateProgress env st _

theorem preserves_scanSequential (env : ScanEnv) :
    (∀ st fsn path, Preserves st (scanDirectorySequential env st fsn path).1) ∧
    (∀ st parentPath l, Preserves st (scanDirectorySequentialLoop env st parentPath l).1) := by
  refine scanDirectorySequential.mutual_induct env
    (fun st fsn path => Preserves st (scanDirectorySequential env st fsn path).1)
    (fun st parentPath l => Preserves st (scanDirectorySequentialLoop env st parentPath l).1)
    ?_ ?_ ?_ ?_ ?_ ?_ ?_
  · intro st fsn path pc hpc
    show Preserves st (scanDirectorySequential env st fsn path).1
    rw [scanSeq_cancel env st fsn path hpc]
    exact preserves_pollCancel env st
  · intro st fsn path pc hpc m hm
    show Preserves st (scanDirectorySequential env st fsn path).1
    rw [scanSeq_readErr env st fsn path m (Bool.eq_false_iff.mpr hpc) hm]
    exact (preserves_pollCancel env st).trans
      (preserves_recordError _ _ (Or.inl ⟨path, m, rfl⟩))
  · intro st fsn path pc hpc entries hm ih
    show Preserves st (scanDirectorySequential env st fsn path).1
    rw [scanSeq_readOk env st fsn path entries (Bool.eq_false_iff.mpr hpc) hm]
    exact (preserves_pollCancel env st).trans ih
  · intro st parentPath
    show Preserves st (scanDirectorySequentialLoop env st parentPath []).1
    rw [scanSeqLoop_nil]
    exact Preserves.refl st
  · intro st parentPath e rest pc hpc
    show Preserves st (scanDirectorySequentialLoop env st parentPath (e :: rest)).1
    rw [scanSeqLoop_cancel env st parentPath e rest hpc]
    exact preserves_pollCancel env st
  · intro st parentPath e rest pc hpc st1 hp ih
    show Preserves st (scanDirectorySequentialLoop env st parentPath (e :: rest)).1
    rw [scanSeqLoop_skip env st st1 parentPath e rest (Bool.eq_false_iff.mpr hpc) hp]
    have h1 : Preserves (pollCancel env st).2 st1 := by
      have h2 := preserves_processEntryCore env (pollCancel env st).2 parentPath e
      rw [hp] at h2
      exact h2
    exact ((preserves_pollCancel env st).trans h1).trans ih
  · intro st parentPath e rest pc hpc st1 node isDir hp r ih1 ih2
    show Preserves st (scanDirectorySequentialLoop env st parentPath (e :: rest)).1
    rw [scanSeqLoop_node env st st1 parentPath e rest node isDir
      (Bool.eq_false_iff.mpr hpc) hp]
    have h1 : Preserves (pollCancel env st).2 st1 := by
      have h2 := preserves_processEntryCore env (pollCancel env st).2 parentPath e
      rw [hp] at h2
      exact h2
    have h0 : Preserves st st1 := (preserves_pollCancel env st).trans h1
    cases isDir with
    | true =>
      simp only [if_true]
      simp only [reduceDIte] at ih2
      exact (h0.trans ih1).trans ih2
    | false =>
      simp only [Bool.false_eq_true, if_false]
      simp only [reduceDIte, Bool.false_eq_true] at ih2
      exact h0.trans ih2

mutual
theorem preserves_scanParallel (env : ScanEnv) (st : SState) (fsn : FSNode)
    (path : String) (depth : Nat) :
    Preserves st (scanDirectoryParallel env st fsn path depth).1 := by
  cases hpc : (pollCancel env st).1 with
  | true =>
    rw [scanPar_cancel env st fsn path depth hpc]
    exact preserves_pollCancel env st
  | false =>
    rcases hm : readDirWithTimeout path fsn with m | entries
    · by_cases hd : depth < 2
      · rw [scanPar_readErr_shallow env st fsn path depth m hpc hd hm]
        exact (preserves_pollCancel env st).trans
          (preserves_recordError _ _ (Or.inl ⟨path, m, rfl⟩))
      · rw [scanPar_readErr_deep env st fsn path depth m hpc hd hm]
        exact ((preserves_pollCancel env st).trans
          (preserves_recordError _ _ (Or.inl ⟨path, m, rfl⟩))).trans
          ((preserves_scanSequential env).1 _ fsn path)
    · by_cases hd : depth < 2
      · rw [scanPar_readOk_shallow env st fsn path depth entries hpc hd hm]
        exact (preserves_pollCancel env st).trans
          (preserves_scanParallelLoop env (pollCancel env st).2 path entries depth)
      · rw [scanPar_readOk_deep env st fsn path depth entries hpc hd hm]
        exact (preserves_pollCancel env st).trans
          ((preserves_scanSequential env).1 _ fsn path)
termination_by (3 * sizeOf fsn + 2 : Nat)
decreasing_by
  cases fsn with
  | mk nm i d v r c =>
    cases r <;> simp [readDirWithTimeout, FSNode.readRes, FSNode.children] at hm
    subst hm
    simp_arith

theorem preserves_scanParallelLoop (env : ScanEnv) (st : SState)
    (parentPath : String) (l : List FSNode) (depth : Nat) :
    Preserves st (scanDirectoryParallelLoop env st parentPath l depth).1 := by
  cases l with
  | nil =>
    rw [scanParLoop_nil]
    exact Preserves.refl st
  | cons e rest =>
    cases hpc : (pollCancel env st).1 with
    | true =>
      rw [scanParLoop_cancel env st parentPath e rest depth hpc]
      exact preserves_pollCancel env st
    | false =>
      rcases hp : processEntryCore env (pollCancel env st).2 parentPath e with ⟨st1, r⟩
      have h1 : Preserves (pollCancel env st).2 st1 := by
        have h2 := preserves_processEntryCore env (pollCancel env st).2 parentPath e
        rw [hp] at h2
        exact h2
      have h0 : Preserves st st1 := (preserves_pollCancel env st).trans h1
      cases r with
      | none =>
        rw [scanParLoop_skip env st st1 parentPath e rest depth hpc hp]
        exact h0.trans (preserves_scanParallelLoop env st1 parentPath rest depth)
      | some nr =>
        rcases nr with ⟨node, isDir⟩
        rw [scanParLoop_node env st st1 parentPath e rest depth node isDir hpc hp]
        cases isDir with
        | true =>
          simp only [if_true]
          exact (h0.trans
            (preserves_scanParallel env st1 e node.path (depth + 1))).trans
            (preserves_scanParallelLoop env _ parentPath rest depth)
        | false =>
          simp only [Bool.false_eq_true, if_false]
          exact h0.trans (preserves_scanParallelLoop env st1 parentPath rest depth)
termination_by (3 * sizeOf l : Nat)
decreasing_by
  all_goals simp_arith
end

theorem Scan_rootFail (env : ScanEnv) (h : rootFailB env = true) :
    (Scan env).tree = none ∧ (Scan env).err.isSome = true ∧
    (Scan env).state = initState ∧
    ((Scan env).err = some ("invalid path") ∨
     (Scan env).err = some ("cannot access path") ∨
     (Scan env).err = some ("cannot get device ID")) := by
  unfold Scan
  by_cases habs : env.absOk = true
  · rcases hinfo : env.rootInfo with _ | info
    · simp [habs, hinfo]
    · have hdev : env.oneFilesystem = true ∧ env.rootDev = none := by
        unfold rootFailB at h
        simp only [habs, Bool.not_true, Bool.false_or, hinfo, Option.isNone_some,
          Bool.and_eq_true, Option.isNone_iff_eq_none] at h
        exact h
      simp [habs, hinfo, hdev.1, hdev.2]
  · simp [habs]

theorem Scan_run (env : ScanEnv) (info : EntryMeta) (h : rootFailB env = false)
    (hinfo : env.rootInfo = some info) :
    ∃ stf : SState,
      Preserves (if env.oneFilesystem then
                  { initState with startDeviceID := env.rootDev.getD 0 }
                 else initState) stf ∧
      (Scan env).tree.isSome = true ∧
      (((Scan env).err = some ("context canceled") ∧
        (Scan env).state =
          { stf with progress := { stf.progress with complete := false } }) ∨
       ((Scan env).err = none ∧
        ((Scan env).state =
           { stf with progress := { stf.progress with complete := true } } ∨
         (Scan env).state =
           (let st4 := { stf with progress := { stf.progress with complete := true } }
            { st4 with sent := st4.sent ++ [st4.progress] })))) := by
  unfold rootFailB at h
  simp only [Bool.or_eq_false_iff, Bool.and_eq_false_iff, Bool.not_eq_false',
    Option.isNone_eq_false_iff] at h
  obtain ⟨⟨habs, _⟩, hdev⟩ := h
  have hdev' : ¬(env.oneFilesystem ∧ env.rootDev = none) := by
    rcases hdev with h1 | h1
    · intro hc
      rw [h1] at hc
      exact absurd hc.1 (by simp)
    · intro hc
      rw [hc.2] at h1
      simp [Option.isSome] at h1
  unfold Scan
  simp only [habs, Bool.not_true, Bool.false_eq_true, if_false, hinfo, hdev', if_true,
    reduceIte]
  set st1 := (if env.oneFilesystem then
                { initState with startDeviceID := env.rootDev.getD 0 }
              else initState) with hst1
  set r := (if info.isDir then
              scanDirectoryParallel env st1 env.rootFS env.rootPath 0
            else (st1, [])) with hr
  have hpres : Preserves st1 r.1 := by
    rw [hr]
    split
    · exact preserves_scanParallel env st1 env.rootFS env.rootPath 0
    · exact Preserves.refl st1
  refine ⟨(pollCancel env r.1).2, hpres.trans (preserves_pollCancel env r.1), ?_⟩
  cases hpc : (pollCancel env r.1).1 with
  | false =>
    simp only [hpc, Bool.false_eq_true, if_false]
    cases hchan : env.hasChan with
    | false =>
      simp only [hchan, Bool.false_eq_true, if_false]
      exact ⟨by simp, Or.inr ⟨by simp, Or.inl (by simp)⟩⟩
    | true =>
      simp only [hchan, if_true]
      cases hfree : env.finalChanFree with
      | false =>
        simp only [hfree, Bool.false_eq_true, if_false]
        exact ⟨by simp, Or.inr ⟨by simp, Or.inl (by simp)⟩⟩
      | true =>
        simp only [hfree, if_true]
        exact ⟨by simp, Or.inr ⟨by simp, Or.inr (by simp)⟩⟩
  | true =>
    simp only [hpc, if_true]
    exact ⟨by simp, Or.inl ⟨by simp, by simp⟩⟩

mutual
/-- On subtrees satisfying the files-have-no-children invariant, the
recursive `TotalSize` of models.go agrees with the plain sum of the file
sizes of the subtree. -/
theorem totalSize_eq_subtree (n : FileNode) (h : wfNode n = true) :
    n.TotalSize = subtreeFileSizes n := by
  cases n with
  | mk p nm s d m ft cs =>
    simp only [wfNode] at h
    simp only [FileNode.TotalSize, subtreeFileSizes]
    cases d with
    | true =>
      simp only [Bool.not_true, Bool.true_and, if_neg, Bool.false_eq_true,
        not_false_iff, if_true, reduceIte]
      have := totalSizeList_eq_subtree cs (by
        simp only [Bool.true_or, Bool.true_and] at h
        exact h)
      omega
    | false =>
      simp only [Bool.false_or, Bool.and_eq_true] at h
      have hcs : cs = [] := by
        have := h.1
        cases cs with
        | nil => rfl
        | cons a l => simp [List.isEmpty] at this
      subst hcs
      simp [TotalSizeList, subtreeFileSizesList]

theorem totalSizeList_eq_subtree (l : List FileNode) (h : wfNodeList l = true) :
    TotalSizeList l = subtreeFileSizesList l := by
  cases l with
  | nil => simp [TotalSizeList, subtreeFileSizesList]
  | cons c cs =>
    simp only [wfNodeList, Bool.and_eq_true] at h
    simp only [TotalSizeList, subtreeFileSizesList]
    rw [totalSize_eq_subtree c h.1, totalSizeList_eq_subtree cs h.2]
end

/-- `rootFailB` is false only when the root stat succeeded. -/
theorem rootFail_false_info (env : ScanEnv) (h : rootFailB env = false) :
    ∃ info, env.rootInfo = some info := by
  unfold rootFailB at h
  rcases hinfo : env.rootInfo with _ | info
  · rw [hinfo] at h
    simp at h
  · exact ⟨info, rfl⟩

/-- The state `Scan` starts the traversal with: zero counters, empty lists,
the start device recorded when `oneFilesystem` is on. -/
theorem scanStart_fields (env : ScanEnv) :
    (if env.oneFilesystem then
       { initState with startDeviceID := env.rootDev.getD 0 }
     else initState).progress.bytesScanned = 0 ∧
    (if env.oneFilesystem then
       { initState with startDeviceID := env.rootDev.getD 0 }
     else initState).sent = [] ∧
    (if env.oneFilesystem then
       { initState with startDeviceID := env.rootDev.getD 0 }
     else initState).progress.errors = [] := by
  split <;> exact ⟨rfl, rfl, rfl⟩

/-- C9: in every `ScanProgress` snapshot a scan delivers, and in the final
progress state, `BytesScanned` is 0: no scanner operation ever increments the
bytes counter the data model declares. -/
theorem C9_bytesScanned (env : ScanEnv) :
    (Scan env).state.progress.bytesScanned = 0 ∧
    ((Scan env).state.sent.all (fun p => p.bytesScanned == 0)) = true := by
  by_cases hf : rootFailB env = true
  · obtain ⟨_, _, hstate, _⟩ := Scan_rootFail env hf
    rw [hstate]
    exact ⟨rfl, rfl⟩
  · have hf' : rootFailB env = false := by
      cases hfb : rootFailB env
      · rfl
      · exact absurd hfb hf
    obtain ⟨info, hinfo⟩ := rootFail_false_info env hf'
    obtain ⟨stf, hpres, _, hcase⟩ := Scan_run env info hf' hinfo
    obtain ⟨h0b, h0s, _⟩ := scanStart_fields env
    obtain ⟨hb, _, _, _, hsent⟩ := hpres
    have hbytes : stf.progress.bytesScanned = 0 := by rw [hb, h0b]
    have hsent0 : ∀ p ∈ stf.sent, p.bytesScanned = 0 := by
      intro p hp
      rcases hsent p hp with h | h
      · rw [h0s] at h
        cases h
      · rw [h, h0b]
    have hall : ∀ s : List ScanProgress, (∀ p ∈ s, p.bytesScanned = 0) →
        (s.all (fun p => p.bytesScanned == 0)) = true := by
      intro s hs
      exact List.all_eq_true.mpr (fun p hp => beq_iff_eq.mpr (hs p hp))
    rcases hcase with ⟨_, hstate⟩ | ⟨_, hstate | hstate⟩ <;> rw [hstate]
    · exact ⟨hbytes, hall _ hsent0⟩
    · exact ⟨hbytes, hall _ hsent0⟩
    · refine ⟨hbytes, hall _ ?_⟩
      intro p hp
      rcases List.mem_append.mp hp with h | h
      · exact hsent0 p h
      · simp only [List.mem_singleton] at h
        subst h
        exact hbytes

/-- C5: a scan that observes cancellation returns the context error together
with a non-nil (partial) tree whose progress is marked incomplete; no error
entry is ever recorded for the cancellation itself (every recorded error is a
directory-read or stat error); and once the cancellation signal is observable
at a poll boundary, neither traversal function sends another snapshot. -/
theorem C5_cancellation :
    (∀ env : ScanEnv, (Scan env).err = some ("context canceled") →
       (Scan env).state.progress.complete = false ∧
       (Scan env).tree.isSome = true) ∧
    (∀ env : ScanEnv, ∀ e ∈ (Scan env).state.progress.errors, isScanErrorMsg e) ∧
    (∀ (env : ScanEnv) (st : SState) (fsn : FSNode) (path : String)
       (depth n : Nat), env.cancelFrom = some n → n ≤ st.nPolls →
       (scanDirectoryParallel env st fsn path depth).1.sent = st.sent ∧
       (scanDirectorySequential env st fsn path).1.sent = st.sent) := by
  refine ⟨?_, ?_, ?_⟩
  · intro env herr
    by_cases hf : rootFailB env = true
    · obtain ⟨_, _, _, hmsg⟩ := Scan_rootFail env hf
      rcases hmsg with h | h | h <;> rw [herr] at h <;> simp at h
    · have hf' : rootFailB env = false := by
        cases hfb : rootFailB env
        · rfl
        · exact absurd hfb hf
      obtain ⟨info, hinfo⟩ := rootFail_false_info env hf'
      obtain ⟨stf, _, htree, hcase⟩ := Scan_run env info hf' hinfo
      rcases hcase with ⟨_, hstate⟩ | ⟨hnone, _⟩
      · rw [hstate]
        exact ⟨rfl, htree⟩
      · rw [herr] at hnone
        cases hnone
  · intro env e he
    by_cases hf : rootFailB env = true
    · obtain ⟨_, _, hstate, _⟩ := Scan_rootFail env hf
      rw [hstate] at he
      cases he
    · have hf' : rootFailB env = false := by
        cases hfb : rootFailB env
        · rfl
        · exact absurd hfb hf
      obtain ⟨info, hinfo⟩ := rootFail_false_info env hf'
      obtain ⟨stf, hpres, _, hcase⟩ := Scan_run env info hf' hinfo
      obtain ⟨_, _, hserr⟩ := scanStart_fields env
      obtain ⟨_, _, _, herrs, _⟩ := hpres
      have hstf : ∀ x ∈ stf.progress.errors, isScanErrorMsg x := by
        intro x hx
        rcases herrs x hx with h | h
        · rw [hserr] at h
          cases h
        · exact h
      rcases hcase with ⟨_, hstate⟩ | ⟨_, hstate | hstate⟩ <;> rw [hstate] at he <;>
        exact hstf e he
  · intro env st fsn path depth n hc hn
    have hcanc : (pollCancel env st).1 = true := by
      unfold pollCancel isCancelledAt
      rw [hc]
      simpa using hn
    rw [scanPar_cancel env st fsn path depth hcanc,
        scanSeq_cancel env st fsn path hcanc]
    exact ⟨rfl, rfl⟩

/-- Witness for C5 at `c5Env`: the scan observes cancellation; the theorem's
conclusions hold there, and the traversal functions send nothing once the
signal is observable. -/
theorem C5_cancellation_witness :
    (Scan c5Env).err = some ("context canceled") ∧
    (Scan c5Env).state.progress.complete = false ∧
    (Scan c5Env).tree.isSome = true ∧
    c5Env.cancelFrom = some 0 ∧ 0 ≤ initState.nPolls ∧
    (scanDirectoryParallel c5Env initState c5Env.rootFS ("/r") 0).1.sent =
      initState.sent := by
  have h1 : (Scan c5Env).err = some ("context canceled") := by
    simp +decide [Scan, c5Env, scanDirectoryParallel, scanDirectoryParallelLoop,
      processEntryCore, readDirWithTimeout, pollCancel, isCancelledAt,
      updateProgress, initState, isICloudPlaceholder, hasPrefixStr, hasSuffixStr, charsStartWith, joinPath, hasSeenInode,
      markInodeSeen, shouldSkipFilesystemBoundary, NewFileNode, recordError,
      addSkip, FSNode.name, FSNode.readRes, FSNode.children, FSNode.infoRes,
      FSNode.devIno, FSNode.volSkip]
  have h2 := C5_cancellation.1 c5Env h1
  have h3 := (C5_cancellation.2.2 c5Env initState c5Env.rootFS ("/r") 0 0 rfl
    (by decide)).1
  exact ⟨h1, h2.1, h2.2, rfl, by decide, h3⟩

/-- C3 holds only as amended: `Scan` returns a non-nil error exactly when the
root fails (path resolution, root stat, or root device lookup) — returning no
tree — or when cancellation is observed, in which case the context error is
returned together with the partial tree; in every other case the error is nil
and accumulated errors live only in the outcome's lists. -/
theorem C3_scanError (env : ScanEnv) :
    if rootFailB env = true then
      (Scan env).tree = none ∧ (Scan env).err.isSome = true
    else
      (Scan env).tree.isSome = true ∧
      ((Scan env).err = none ∨ (Scan env).err = some ("context canceled")) := by
  by_cases hf : rootFailB env = true
  · rw [if_pos hf]
    obtain ⟨ht, he, _, _⟩ := Scan_rootFail env hf
    exact ⟨ht, he⟩
  · rw [if_neg hf]
    have hf' : rootFailB env = false := by
      cases hfb : rootFailB env
      · rfl
      · exact absurd hfb hf
    obtain ⟨info, hinfo⟩ := rootFail_false_info env hf'
    obtain ⟨stf, _, htree, hcase⟩ := Scan_run env info hf' hinfo
    refine ⟨htree, ?_⟩
    rcases hcase with ⟨hc, _⟩ | ⟨hn, _⟩
    · exact Or.inr hc
    · exact Or.inl hn

/-- Counterexample to C3 as stated: at `c3Env` the root resolves and stats
successfully (no fatal root case), yet `Scan` returns a non-nil error — the
context cancellation error — together with a non-nil tree. The claim's
"nil error in every other case, including scans stopped by cancellation" is
false on the code: scanner.go line 673 returns `ctx.Err()`. -/
theorem C3_counterexample :
    rootFailB c3Env = false ∧
    (Scan c3Env).err = some ("context canceled") ∧
    (Scan c3Env).err.isSome = true ∧
    (Scan c3Env).tree.isSome = true := by
  refine ⟨by decide, ?_, by decide, by decide⟩
  decide

/-- `updateProgress` always produces the progress record with the new path
and the incremented files counter, whatever the throttling decides. -/
theorem updateProgress_progress (env : ScanEnv) (st : SState) (p : String) :
    (updateProgress env st p).progress =
      { st.progress with
          currentPath := p
          filesScanned := st.progress.filesScanned + 1 } := by
  unfold updateProgress
  dsimp only
  split
  · split <;> rfl
  · rfl

/-- `updateProgress` leaves the dedup table untouched. -/
theorem updateProgress_seen (env : ScanEnv) (st : SState) (p : String) :
    (updateProgress env st p).seenInodes = st.seenInodes := by
  unfold updateProgress
  dsimp only
  split
  · split <;> rfl
  · rfl

/-- `updateProgress` leaves the recorded start device untouched. -/
theorem updateProgress_startDev (env : ScanEnv) (st : SState) (p : String) :
    (updateProgress env st p).startDeviceID = st.startDeviceID := by
  unfold updateProgress
  dsimp only
  split
  · split <;> rfl
  · rfl

/-- C10: in the entry loops, the `FilesScanned` counter is incremented exactly
once for every entry reached in a listing that is not an iCloud placeholder —
directories, entries later skipped as network/cloud volumes, aliases,
boundary crossings, and entries whose stat fails all included — so it counts
visited entries, not attached nodes; placeholders are counted only in the
separate `ICloudFilesSkipped` counter and never in `FilesScanned`. -/
theorem C10_filesScanned (env : ScanEnv) (st : SState) (parentPath : String)
    (e : FSNode) :
    if isICloudPlaceholder e.name then
      (processEntryCore env st parentPath e).1.progress.filesScanned =
        st.progress.filesScanned ∧
      (processEntryCore env st parentPath e).1.progress.icloudFilesSkipped =
        st.progress.icloudFilesSkipped + 1
    else
      (processEntryCore env st parentPath e).1.progress.filesScanned =
        st.progress.filesScanned + 1 ∧
      (processEntryCore env st parentPath e).1.progress.icloudFilesSkipped =
        st.progress.icloudFilesSkipped := by
  unfold processEntryCore
  dsimp only
  split
  · exact ⟨rfl, rfl⟩
  · repeat' split
    all_goals
      simp [addSkip, recordError, markInodeSeen, updateProgress_progress]

/-- C4 is a code bug at depth 2: a grandchild directory whose listing times
out gets its timeout error recorded twice, because `scanDirectoryParallel`
reads the directory (recording the first error), discards the listing, and
then calls `scanDirectorySequential`, which re-reads it and records the error
again (scanner.go lines 705-713 and 799-801 followed by 814-818). The other
parts of the claim hold at this input: the directory contributes zero
children, the error names the path, and the sibling file is still visited
(three entries counted, no scan abort). -/
theorem C4_timeoutDoubleRecord :
    (Scan c4Env).state.progress.errors =
      [("cannot read directory /r/a/b: timeout reading directory (>5s): /r/a/b"),
       ("cannot read directory /r/a/b: timeout reading directory (>5s): /r/a/b")] ∧
    (Scan c4Env).state.progress.filesScanned = 3 ∧
    (Scan c4Env).err = none := by
  refine ⟨?_, ?_, ?_⟩ <;>
    simp +decide [Scan, c4Env, scanDirectoryParallel, scanDirectoryParallelLoop,
      scanDirectorySequential, scanDirectorySequentialLoop, processEntryCore,
      readDirWithTimeout, pollCancel, isCancelledAt, updateProgress, initState,
      isICloudPlaceholder, hasPrefixStr, hasSuffixStr, charsStartWith, joinPath, hasSeenInode, markInodeSeen,
      shouldSkipFilesystemBoundary, NewFileNode, recordError, addSkip,
      FSNode.name, FSNode.readRes, FSNode.children, FSNode.infoRes,
      FSNode.devIno, FSNode.volSkip, FileNode.path]

/-- C8 holds only as amended: with stay-on-one-filesystem enabled the root's
device identifier is recorded as the scan's boundary, and a directory entry
whose device differs from it — provided it reaches the boundary check: not an
iCloud placeholder, not volume-skipped, stat succeeded, and its
(device, inode) pair not already marked seen — is appended to the skip list
with a reason containing "different filesystem", contributes no node and is
not descended into. An entry whose pair is already marked seen is skipped
with reason "alias/firmlink" instead, because the dedup check precedes the
boundary check. -/
theorem C8_filesystemBoundary :
    (∀ (env : ScanEnv) (info : EntryMeta), rootFailB env = false →
       env.rootInfo = some info → env.oneFilesystem = true →
       (Scan env).state.startDeviceID = env.rootDev.getD 0) ∧
    (∀ (env : ScanEnv) (st : SState) (parentPath : String) (e : FSNode)
       (meta : EntryMeta) (d i : Nat),
       env.oneFilesystem = true →
       isICloudPlaceholder e.name = false →
       e.volSkip = none →
       e.infoRes = .ok meta → meta.isDir = true →
       e.devIno = some (d, i) →
       hasSeenInode st d i = false →
       d ≠ st.startDeviceID →
       processEntryCore env st parentPath e =
         (addSkip
           (markInodeSeen (updateProgress env st (joinPath parentPath e.name)) d i)
           (joinPath parentPath e.name ++ (" (") ++
            (("different filesystem (device ") ++ toString d ++ (")")) ++ (")")),
          none)) := by
  constructor
  · intro env info hf hinfo hone
    obtain ⟨stf, hpres, _, hcase⟩ := Scan_run env info hf hinfo
    obtain ⟨_, hdev, _, _, _⟩ := hpres
    have hs1 : (if env.oneFilesystem then
        { initState with startDeviceID := env.rootDev.getD 0 }
      else initState).startDeviceID = env.rootDev.getD 0 := by
      rw [if_pos hone]
    rcases hcase with ⟨_, hstate⟩ | ⟨_, hstate | hstate⟩ <;> rw [hstate] <;>
      simpa [hs1] using hdev
  · intro env st parentPath e meta d i hone hic hvol hinfo hisdir hdev hseen hne
    unfold processEntryCore
    dsimp only
    simp only [hic, Bool.false_eq_true, if_false, hvol, hinfo, hisdir, if_true, hdev]
    have hs2 : hasSeenInode (updateProgress env st (joinPath parentPath e.name)) d i
        = false := by
      unfold hasSeenInode at hseen ⊢
      rw [updateProgress_seen]
      exact hseen
    simp only [hs2, Bool.false_eq_true, if_false]
    have hb : shouldSkipFilesystemBoundary env
        (markInodeSeen (updateProgress env st (joinPath parentPath e.name)) d i) e =
        some (("different filesystem (device ") ++ toString d ++ (")")) := by
      unfold shouldSkipFilesystemBoundary
      have hsd : (markInodeSeen (updateProgress env st (joinPath parentPath e.name))
          d i).startDeviceID = st.startDeviceID := by
        unfold markInodeSeen
        exact updateProgress_startDev env st _
      simp only [hone, Bool.not_true, Bool.false_eq_true, if_false, hdev, hsd]
      rw [if_pos hne]
    simp only [hb]

/-- Witness for C8: at `c8Env` the boundary is recorded as device 1, and the
`/r/x` entry (device 2, not yet seen) is skip-listed with the
"different filesystem" reason, producing no node. -/
theorem C8_filesystemBoundary_witness :
    (Scan c8Env).state.startDeviceID = c8Env.rootDev.getD 0 ∧
    processEntryCore c8Env { initState with startDeviceID := 1 } ("/r") c8XNode =
      (addSkip
        (markInodeSeen (updateProgress c8Env { initState with startDeviceID := 1 }
          (joinPath ("/r") c8XNode.name)) 2 5)
        (joinPath ("/r") c8XNode.name ++ (" (") ++
         (("different filesystem (device ") ++ toString 2 ++ (")")) ++ (")")),
       none) :=
  ⟨C8_filesystemBoundary.1 c8Env { size := 0, modTime := 0, isDir := true }
     (by decide) rfl rfl,
   C8_filesystemBoundary.2 c8Env { initState with startDeviceID := 1 } ("/r")
     c8XNode { size := 0, modTime := 0, isDir := true } 2 5 rfl (by decide) rfl rfl
     rfl rfl (by decide) (by decide)⟩

/-- Counterexample to C8 as stated: at `c8Env` the second logical path `/r/y`
of the off-filesystem directory resolves to a differing device identifier,
yet its skip-list entry carries the reason "alias/firmlink", not one
containing "different filesystem" — the dedup check fires first, since the
first path already marked the (device, inode) pair seen (and was itself
skipped with the boundary reason). -/
theorem C8_counterexample :
    c8Env.oneFilesystem = true ∧
    (Scan c8Env).state.skippedVolumes =
      [("/r/x (different filesystem (device 2))"), ("/r/y (alias/firmlink)")] ∧
    ((Scan c8Env).state.skippedVolumes.all
      (fun s => !(containsSubstr s ("/r/y") &&
                  containsSubstr s ("different filesystem")))) = true := by
  refine ⟨rfl, ?_, ?_⟩ <;>
    simp +decide [Scan, c8Env, scanDirectoryParallel, scanDirectoryParallelLoop,
      scanDirectorySequential, scanDirectorySequentialLoop, processEntryCore,
      readDirWithTimeout, pollCancel, isCancelledAt, updateProgress, initState,
      isICloudPlaceholder, hasPrefixStr, hasSuffixStr, charsStartWith, joinPath, hasSeenInode, markInodeSeen,
      shouldSkipFilesystemBoundary, NewFileNode, recordError, addSkip,
      containsSubstr, FSNode.name, FSNode.readRes, FSNode.children,
      FSNode.infoRes, FSNode.devIno, FSNode.volSkip]

theorem measT_unfold (t : DirTree) : measT t = 4 + measTL t.children := by
  cases t with
  | node cs => simp [measT, DirTree.children]

theorem measPend_le (t : DirTree) (d : Nat) : measPend t d ≤ measTL t.children := by
  unfold measPend pendingOf
  split
  · exact le_rfl
  · simp [measTL]

theorem isDoneC_measC {c : TaskC} (h : isDoneC c = true) : measC c = 0 := by
  cases c <;> simp [isDoneC] at h ⊢ <;> rfl

theorem isDoneL_measL {sp : List TaskC} (h : isDoneL sp = true) : measL sp = 0 := by
  induction sp with
  | nil => rfl
  | cons c cs ih =>
    simp only [isDoneL, Bool.and_eq_true] at h
    simp only [measL, isDoneC_measC h.1, ih h.2]

mutual
theorem step_measC : ∀ {cap o : Nat} {c c' : TaskC},
    Step cap o c c' → measC c' < measC c
  | _, _, _, _, .acquire _ => by simp only [measC]; omega
  | _, _, _, _, .readDone => by simp only [measC, measL, measPend]; omega
  | _, _, _, _, @Step.spawn _ _ sp c rest d => by
    have h1 := measPend_le c (d + 1)
    have h2 := measT_unfold c
    simp only [measC, measL, measTL]
    omega
  | _, _, _, _, .beginWait => by simp only [measC, measTL]; omega
  | _, _, _, _, .finish _ => by simp only [measC]; omega
  | _, _, _, _, .stepInRun hl => by
    have := stepL_measL hl
    simp only [measC]
    omega
  | _, _, _, _, .stepInWait hl => by
    have := stepL_measL hl
    simp only [measC]
    omega

theorem stepL_measL : ∀ {cap o : Nat} {sp sp' : List TaskC},
    StepL cap o sp sp' → measL sp' < measL sp
  | _, _, _, _, .head hs => by
    have := step_measC hs
    simp only [measL]
    omega
  | _, _, _, _, .tail ht => by
    have := stepL_measL ht
    simp only [measL]
    omega
end

mutual
theorem stepOfHolds : ∀ (cap o : Nat) (c : TaskC), 0 < holdsC c →
    ∃ c', Step cap o c c'
  | _, _, .start _ _, h => by simp [holdsC] at h
  | _, _, .reading _ _, _ => ⟨_, .readDone⟩
  | cap, o, .running sp _ _, h => by
    have hl : 0 < holdsL sp := by simpa [holdsC] using h
    obtain ⟨sp', hs⟩ := stepLOfHolds cap o sp hl
    exact ⟨_, .stepInRun hs⟩
  | cap, o, .waiting sp, h => by
    have hl : 0 < holdsL sp := by simpa [holdsC] using h
    obtain ⟨sp', hs⟩ := stepLOfHolds cap o sp hl
    exact ⟨_, .stepInWait hs⟩
  | _, _, .done, h => by simp [holdsC] at h

theorem stepLOfHolds : ∀ (cap o : Nat) (sp : List TaskC), 0 < holdsL sp →
    ∃ sp', StepL cap o sp sp'
  | _, _, [], h => by simp [holdsL] at h
  | cap, o, c :: rest, h => by
    by_cases hc : 0 < holdsC c
    · obtain ⟨c', hs⟩ := stepOfHolds cap (o + holdsL rest) c hc
      exact ⟨_, .head hs⟩
    · have hr : 0 < holdsL rest := by
        simp only [holdsL] at h
        omega
      obtain ⟨rest', hs⟩ := stepLOfHolds cap (o + holdsC c) rest hr
      exact ⟨_, .tail hs⟩
end

mutual
theorem stepOfIdle : ∀ (cap o : Nat) (c : TaskC), holdsC c = 0 →
    isDoneC c = false → o < cap → ∃ c', Step cap o c c'
  | _, _, .start _ _, _, _, hlt => ⟨_, .acquire hlt⟩
  | _, _, .reading _ _, h, _, _ => by simp [holdsC] at h
  | _, _, .running _ [] _, _, _, _ => ⟨_, .beginWait⟩
  | _, _, .running _ (_ :: _) _, _, _, _ => ⟨_, .spawn⟩
  | cap, o, .waiting sp, h, _, hlt => by
    cases hd : isDoneL sp with
    | true => exact ⟨_, .finish hd⟩
    | false =>
      have hsp : holdsL sp = 0 := by simpa [holdsC] using h
      obtain ⟨sp', hs⟩ := stepLOfIdle cap o sp hsp hd hlt
      exact ⟨_, .stepInWait hs⟩
  | _, _, .done, _, hdone, _ => by simp [isDoneC] at hdone

theorem stepLOfIdle : ∀ (cap o : Nat) (sp : List TaskC), holdsL sp = 0 →
    isDoneL sp = false → o < cap → ∃ sp', StepL cap o sp sp'
  | _, _, [], _, hd, _ => by simp [isDoneL] at hd
  | cap, o, c :: rest, h, hd, hlt => by
    have hc0 : holdsC c = 0 := by
      simp only [holdsL] at h
      omega
    have hr0 : holdsL rest = 0 := by
      simp only [holdsL] at h
      omega
    cases hdc : isDoneC c with
    | false =>
      obtain ⟨c', hs⟩ := stepOfIdle cap (o + holdsL rest) c hc0 hdc
        (by rw [hr0]; simpa using hlt)
      exact ⟨_, .head hs⟩
    | true =>
      have hdr : isDoneL rest = false := by
        simp only [isDoneL, hdc, Bool.true_and] at hd
        exact hd
      obtain ⟨rest', hs⟩ := stepLOfIdle cap (o + holdsC c) rest hr0 hdr
        (by rw [hc0]; simpa using hlt)
      exact ⟨_, .tail hs⟩
end

/-- C1: in the task-system model of `scanDirectoryParallel`, (i) the only
transition out of a read — the phase holding the semaphore slot — releases
the slot before a single child goroutine exists (release-before-recurse, the
ordering at scanner.go lines 703-708 versus 791 and 798); and consequently,
for any worker-pool capacity of at least one and any directory tree —
including trees whose branching factor and depth exceed the default capacity
of 8 — (ii) every configuration with unfinished work can step (no deadlock),
(iii) every step strictly decreases the remaining-work measure (no infinite
run), so (iv) from every configuration, in particular the initial one, the
system reaches the all-done configuration. -/
theorem C1_noDeadlock (cap : Nat) (hcap : 0 < cap) :
    (∀ (o : Nat) (t : DirTree) (d : Nat) (c' : TaskC),
       Step cap o (.reading t d) c' → c' = .running [] (pendingOf t d) d) ∧
    (∀ c : TaskC, isDoneC c = false → ∃ c', Step cap 0 c c') ∧
    (∀ (o : Nat) (c c' : TaskC), Step cap o c c' → measC c' < measC c) ∧
    (∀ c : TaskC, ∃ c', Relation.ReflTransGen (Step cap 0) c c' ∧
       isDoneC c' = true) := by
  have hprog : ∀ c : TaskC, isDoneC c = false → ∃ c', Step cap 0 c c' := by
    intro c hc
    cases hh : holdsC c with
    | zero => exact stepOfIdle cap 0 c hh hc hcap
    | succ n => exact stepOfHolds cap 0 c (by omega)
  refine ⟨?_, hprog, fun o c c' h => step_measC h, ?_⟩
  · intro o t d c' h
    cases h with
    | readDone => rfl
  · have hrun : ∀ (n : Nat) (c : TaskC), measC c ≤ n →
        ∃ c', Relation.ReflTransGen (Step cap 0) c c' ∧ isDoneC c' = true := by
      intro n
      induction n with
      | zero =>
        intro c hc
        cases hd : isDoneC c with
        | true => exact ⟨c, Relation.ReflTransGen.refl, hd⟩
        | false =>
          obtain ⟨c', hs⟩ := hprog c hd
          have := step_measC hs
          omega
      | succ n ih =>
        intro c hc
        cases hd : isDoneC c with
        | true => exact ⟨c, Relation.ReflTransGen.refl, hd⟩
        | false =>
          obtain ⟨c', hs⟩ := hprog c hd
          have hlt := step_measC hs
          obtain ⟨c'', h1, h2⟩ := ih c' (by omega)
          exact ⟨c'', Relation.ReflTransGen.head hs h1, h2⟩
    exact fun c => hrun (measC c) c le_rfl

/-- Witness for C1 at capacity 8 and the concrete tree `c1Tree`. -/
theorem C1_noDeadlock_witness :
    0 < 8 ∧ ∃ c', Relation.ReflTransGen (Step 8 0) (.start c1Tree 0) c' ∧
      isDoneC c' = true :=
  ⟨by decide, (C1_noDeadlock 8 (by decide)).2.2.2 (.start c1Tree 0)⟩

/-- C2 is a code bug: `hasSeenInode` and `markInodeSeen` (scanner.go lines
976-995) are separate critical sections of `seenInodesMu`, so the
check-then-mark sequence of the entry loops (lines 761-771) is not atomic.
Two goroutines concurrently processing two logical paths of the same
physical directory — reachable at depth < 2, where sibling subtree scans run
concurrently — can interleave as check, check, mark-and-descend,
mark-and-descend: both descend and neither records the alias/firmlink skip,
so the directory's contents are visited and counted twice. The second
conjunct shows the serialized interleaving gives the claimed
exactly-once / skip-recorded behaviour. -/
theorem C2_dedupRace :
    ((aliasRun [false, true, false, true]
        (false, aliasTaskInit, aliasTaskInit)).2.1.descended = true ∧
     (aliasRun [false, true, false, true]
        (false, aliasTaskInit, aliasTaskInit)).2.2.descended = true ∧
     (aliasRun [false, true, false, true]
        (false, aliasTaskInit, aliasTaskInit)).2.1.skippedAlias = false ∧
     (aliasRun [false, true, false, true]
        (false, aliasTaskInit, aliasTaskInit)).2.2.skippedAlias = false) ∧
    ((aliasRun [false, false, true, true]
        (false, aliasTaskInit, aliasTaskInit)).2.1.descended = true ∧
     (aliasRun [false, false, true, true]
        (false, aliasTaskInit, aliasTaskInit)).2.2.descended = false ∧
     (aliasRun [false, false, true, true]
        (false, aliasTaskInit, aliasTaskInit)).2.2.skippedAlias = true) := by
  decide

/-- C6: for every `FileNode` with `IsDir` true, `TotalSize` is the sum of the
direct children's `TotalSize` (zero for an empty `Children` list, the
directory's own `Size` field being ignored), for every node with `IsDir`
false it is the node's own `Size`, and consequently, on any tree shape
satisfying the files-have-no-children data-model invariant, a directory's
`TotalSize` is the recursive sum of the file sizes in its subtree. -/
theorem C6_totalSize :
    (∀ n : FileNode, n.isDir = false → n.TotalSize = n.size) ∧
    (∀ n : FileNode, n.isDir = true → n.TotalSize = TotalSizeList n.children) ∧
    (∀ n : FileNode, n.isDir = true → n.children = [] → n.TotalSize = 0) ∧
    (∀ n : FileNode, wfNode n = true → n.TotalSize = subtreeFileSizes n) := by
  refine ⟨?_, ?_, ?_, fun n h => totalSize_eq_subtree n h⟩
  · intro n h
    cases n with
    | mk p nm s d m ft cs =>
      simp only [FileNode.isDir] at h
      subst h
      simp [FileNode.TotalSize, FileNode.size]
  · intro n h
    cases n with
    | mk p nm s d m ft cs =>
      simp only [FileNode.isDir] at h
      subst h
      simp [FileNode.TotalSize, FileNode.children]
  · intro n h hc
    cases n with
    | mk p nm s d m ft cs =>
      simp only [FileNode.isDir] at h
      simp only [FileNode.children] at hc
      subst h
      subst hc
      simp [FileNode.TotalSize, TotalSizeList]

/-- Witness for C6 at the concrete tree `c6Tree`. -/
theorem C6_totalSize_witness :
    c6Tree.isDir = true ∧ wfNode c6Tree = true ∧
    c6Tree.TotalSize = TotalSizeList c6Tree.children ∧
    c6Tree.TotalSize = subtreeFileSizes c6Tree :=
  ⟨by simp [c6Tree, FileNode.isDir],
   by simp [c6Tree, wfNode, wfNodeList, List.isEmpty],
   C6_totalSize.2.1 c6Tree (by simp [c6Tree, FileNode.isDir]),
   C6_totalSize.2.2.2 c6Tree (by simp [c6Tree, wfNode, wfNodeList, List.isEmpty])⟩

/-- C7: `updateProgress` updates the progress state on every visited entry
(the files counter is incremented and the current path recorded
unconditionally), but a snapshot reaches the progress channel only when at
least 100ms elapsed since the last flush or the cumulative entry count is a
multiple of 100 (and a channel exists); the send is non-blocking, so a full
channel means the snapshot is dropped and nothing is sent. -/
theorem C7_updateProgress (env : ScanEnv) (st : SState) (p : String) :
    ((updateProgress env st p).progress.filesScanned = st.progress.filesScanned + 1 ∧
     (updateProgress env st p).progress.currentPath = p) ∧
    ((updateProgress env st p).sent ≠ st.sent →
      (updateProgress env st p).sent = st.sent ++ [(updateProgress env st p).progress] ∧
      env.hasChan = true ∧ env.chanFreeAt st.nUpd = true ∧
      (env.timeAt st.nUpd - st.lastProgressUpdate ≥ 100 ∨
       (st.progress.filesScanned + 1) % 100 = 0)) ∧
    (env.chanFreeAt st.nUpd = false → (updateProgress env st p).sent = st.sent) := by
  unfold updateProgress
  dsimp only
  split
  next hcond =>
    split
    next hfree =>
      refine ⟨⟨rfl, rfl⟩, fun _ => ⟨rfl, hcond.1, hfree, ?_⟩, fun hf => ?_⟩
      · rcases hcond.2 with h | h
        · exact Or.inl (by omega)
        · exact Or.inr h
      · rw [hfree] at hf
        cases hf
    next hfree =>
      exact ⟨⟨rfl, rfl⟩, fun hne => absurd rfl hne, fun _ => rfl⟩
  next hcond =>
    exact ⟨⟨rfl, rfl⟩, fun hne => absurd rfl hne, fun _ => rfl⟩

/-- Witness for C7: at `c7Env` and the initial state the flush fires, and the
conclusions of `C7_updateProgress` hold there. -/
theorem C7_updateProgress_witness :
    (updateProgress c7Env initState ("/r/x")).sent ≠ initState.sent ∧
    ((updateProgress c7Env initState ("/r/x")).sent =
      initState.sent ++ [(updateProgress c7Env initState ("/r/x")).progress] ∧
     c7Env.hasChan = true ∧ c7Env.chanFreeAt initState.nUpd = true ∧
     (c7Env.timeAt initState.nUpd - initState.lastProgressUpdate ≥ 100 ∨
      (initState.progress.filesScanned + 1) % 100 = 0)) :=
  ⟨by decide, (C7_updateProgress c7Env initState ("/r/x")).2.1 (by decide)⟩

end SpaceForce
